import Mathlib

/-!
Shallow embedding of the SpotiTube core (BotGrace/SpotiTube):
  * `src/structures/LavaLink.js`  — a single backend node (`LavaLink`),
  * `src/managers/LavaLinkManager.js` — the backend pool,
  * `src/index.js` — the resolution pipeline (`SpotiTube.convert`,
    `validateURL`, `getRedisCache`/`setRedisCache`, `searchLavaLink`).

JavaScript idioms are modelled explicitly: string fields that may be
`undefined` are `Option String`, truthiness of such a field means
"present and non-empty", numbers that can go negative are `Int`,
thrown exceptions are an explicit `JsError` value, and the network is
an oracle parameter (the response the remote end would give).
-/

/-- A thrown JavaScript exception: either `new Error(msg)` or a
`ReferenceError` raised by the engine itself (use of an undeclared name). -/
inductive JsError where
  | error (msg : String)
  | referenceError (msg : String)
deriving DecidableEq, Repr

/-- JS truthiness of a possibly-`undefined` string: `undefined`, `null`
and `""` are falsy, every other string is truthy. -/
def jsTruthyStr : Option String → Bool
  | none => false
  | some s => !(s == "")

/-- JS `a || b` on possibly-`undefined` strings: the first truthy operand. -/
def jsOrStr (a b : Option String) : Option String :=
  if jsTruthyStr a then a else b

/-! ## LavaLink node (`src/structures/LavaLink.js`) -/

/-- The `info` object of one entry of the Lavalink `loadtracks` response. -/
structure TrackInfo where
  uri : String
  title : String
deriving DecidableEq, Repr

/-- One entry of `data.tracks` in a `loadtracks` response. -/
structure LLTrackEntry where
  info : TrackInfo
  track : String
deriving DecidableEq, Repr

/-- The JSON body of a `loadtracks` response: an optional `error` field
and a `tracks` array. -/
structure LLResponse where
  error : Option String
  tracks : List LLTrackEntry
deriving DecidableEq, Repr

/-- What the `fetch(...).then(res => res.json())` chain produced:
either a rejection (transport failure or invalid JSON body) or a parsed
response object. -/
inductive FetchOutcome where
  | reject (msg : String)
  | resp (r : LLResponse)
deriving DecidableEq, Repr

/-- The object returned by a successful search:
`{...data.tracks[0]?.info, track: data.tracks[0]?.track}`. -/
structure SearchResult where
  uri : String
  title : String
  track : String
deriving DecidableEq, Repr

/-- A `LavaLink` node: mutable `load` counter (a JS number, so it can in
principle go negative), `error` flag (`false` initially, an error string
once something failed), url, password and name. -/
structure LLNode where
  load : Int
  error : Option String
  url : Option String
  password : Option String
  name : String
deriving DecidableEq, Repr

namespace LLNode

/-- `LavaLink.search(query)` from `src/structures/LavaLink.js`, with the
network's behaviour supplied as the `outcome` oracle.  Returns the node
with its mutated `load`/`error` fields together with either a thrown
exception or the resolved value of the promise.

Source shape: throw on empty query; throw (after setting `error`) on a
missing url/password; `this.load++`; dispatch; the `.then` handler does
`this.load--` and then either throws (`data?.error` truthy), returns
`null` (no tracks), or returns the first track; the `.catch` handler —
which also catches the throw from the `.then` handler — does
`this.load--` again, records the error, and returns `null`. -/
def search (n : LLNode) (query : String) (outcome : FetchOutcome) :
    LLNode × Except JsError (Option SearchResult) :=
  if query = "" then (n, .error (.error "Missing Search"))
  else if !(jsTruthyStr n.url) || !(jsTruthyStr n.password) then
    ({ n with error := some "No password or url" },
     .error (.error "No password or url"))
  else
    let n₁ := { n with load := n.load + 1 }
    match outcome with
    | .reject msg =>
        -- fetch rejected or res.json() failed: only the catch handler runs
        ({ n₁ with load := n₁.load - 1, error := some msg }, .ok none)
    | .resp r =>
        -- the then handler runs: decrement, then inspect the body
        let n₂ := { n₁ with load := n₁.load - 1 }
        if jsTruthyStr r.error then
          -- `throw new Error(data?.error || "Probs 404")` lands in the
          -- catch handler, which decrements AGAIN and records the error
          ({ n₂ with load := n₂.load - 1,
                     error := some ((jsOrStr r.error (some "Probs 404")).getD "") },
           .ok none)
        else
          match r.tracks with
          | [] => (n₂, .ok none)
          | t :: _ =>
              (n₂, .ok (some { uri := t.info.uri, title := t.info.title,
                               track := t.track }))

end LLNode

/-! ## Backend pool (`src/managers/LavaLinkManager.js`) -/

/-- `[...this.nodes.values()]`: the pool's nodes in Map insertion order. -/
abbrev NodePool := List LLNode

/-- The manager's `this.nodes` Map: name/node pairs in insertion order. -/
abbrev NodeMap := List (String × LLNode)

/-- Stable insertion of a node into a list already sorted by `load`,
placing the new element after all elements of smaller-or-equal load.
This is the behaviour of JS `Array.prototype.sort` with comparator
`(a, b) => a.load - b.load` (sort is stable), decomposed one element at
a time. -/
def insertByLoad (x : LLNode) : List LLNode → List LLNode
  | [] => [x]
  | y :: ys => if x.load < y.load then x :: y :: ys else y :: insertByLoad x ys

/-- `.sort((a, b) => a.load - b.load)`: stable sort by `load`. -/
def sortByLoad (l : List LLNode) : List LLNode :=
  l.foldl (fun acc x => insertByLoad x acc) []

/-- The non-errored members of the pool: `.filter(g => !g.error)`. -/
def healthyNodes (nodes : NodePool) : List LLNode :=
  nodes.filter (fun g => !(jsTruthyStr g.error))

/-- `LavaLinkManager.getBestNode()`: throw on an empty Map; otherwise
filter out errored nodes, sort by load, `.shift()` the first; throw if
nothing is left. -/
def getBestNode (nodes : NodePool) : Except JsError LLNode :=
  if nodes.length = 0 then .error (.error "No nodes existing")
  else
    match (sortByLoad (healthyNodes nodes)).head? with
    | none => .error (.error "No nodes existing")
    | some n => .ok n

/-- The first element of minimal `load` in a list (specification-side
definition used to state what `getBestNode` returns). -/
def firstMinLoad : List LLNode → Option LLNode
  | [] => none
  | x :: xs =>
      match firstMinLoad xs with
      | none => some x
      | some m => if x.load ≤ m.load then some x else some m

/-- `LavaLinkManager.delName(name)`.  The source reads

    delName(name) {
      if (!name) throw new Error("No Name Given");
      const node = this.nodes.get(name);
      if (!node) return false;
      this.nodes.delete(key);
      return !this.nodes.has(name)
    }

`key` is not declared anywhere in scope, so when a node with the given
name exists the line `this.nodes.delete(key)` raises
`ReferenceError: key is not defined` before anything is deleted. -/
def delName (nodes : NodeMap) (name : String) :
    Except JsError (NodeMap × Bool) :=
  if name = "" then .error (.error "No Name Given")
  else
    match nodes.lookup name with
    | none => .ok (nodes, false)
    | some _ => .error (.referenceError "key is not defined")

/-- `get load ()` of the manager: sum of member loads. -/
def managerLoad (nodes : NodePool) : Int :=
  (nodes.map (fun g => g.load)).foldl (· + ·) 0

/-! ## URL validation (`src/index.js`: the default regex and `validateURL`)

The default option `spotify.regex` is the global-flagged regex

  /(https?:\/\/open\.spotify\.com\/(playlist|track)\/[a-zA-Z0-9]+|spotify:(playlist|track):[a-zA-Z0-9])/g

We model it as an explicit matcher over character lists together with the
`lastIndex` state that a global regex keeps between `.test` calls. -/

/-- Consume the literal `pat` from the front of `s`; `none` on mismatch. -/
def dropLit : List Char → List Char → Option (List Char)
  | [], s => some s
  | _ :: _, [] => none
  | p :: ps, c :: cs => if c = p then dropLit ps cs else none

/-- The alternation `(playlist|track)`, tried left to right. -/
def dropTypeAlt (s : List Char) : Option (List Char) :=
  match dropLit "playlist".toList s with
  | some r => some r
  | none => dropLit "track".toList s

/-- `[a-zA-Z0-9]+`: at least one ASCII alphanumeric, greedy. -/
def takeAlnum1 : List Char → Option (List Char)
  | [] => none
  | c :: cs =>
      if c.isAlphanum then some (cs.dropWhile Char.isAlphanum) else none

/-- After the optional `s` of `https?`: `://open.spotify.com/` then
`(playlist|track)` then `/` then `[a-zA-Z0-9]+`. -/
def matchAlt1Tail (t : List Char) : Option (List Char) :=
  match dropLit "://open.spotify.com/".toList t with
  | none => none
  | some t₁ =>
      match dropTypeAlt t₁ with
      | none => none
      | some t₂ =>
          match dropLit "/".toList t₂ with
          | none => none
          | some t₃ => takeAlnum1 t₃

/-- First alternative `https?:\/\/open\.spotify\.com\/(playlist|track)\/[a-zA-Z0-9]+`,
with backtracking over the optional greedy `s?`. -/
def matchAlt1 (s : List Char) : Option (List Char) :=
  match dropLit "http".toList s with
  | none => none
  | some s₁ =>
      match dropLit "s".toList s₁ with
      | some s₂ =>
          match matchAlt1Tail s₂ with
          | some r => some r
          | none => matchAlt1Tail s₁
      | none => matchAlt1Tail s₁

/-- Second alternative `spotify:(playlist|track):[a-zA-Z0-9]` (note: the
source pattern has no `+` here, a single id character suffices). -/
def matchAlt2 (s : List Char) : Option (List Char) :=
  match dropLit "spotify:".toList s with
  | none => none
  | some s₁ =>
      match dropTypeAlt s₁ with
      | none => none
      | some s₂ =>
          match dropLit ":".toList s₂ with
          | none => none
          | some s₃ =>
              match s₃ with
              | [] => none
              | c :: cs => if c.isAlphanum then some cs else none

/-- Scan the suffix `s` (whose first character sits at index `pos` of the
whole subject) for the leftmost match of either alternative; return the
end index of the match. -/
def scanMatch : List Char → Nat → Option Nat
  | s, pos =>
      match (matchAlt1 s).orElse (fun _ => matchAlt2 s) with
      | some rest => some (pos + (s.length - rest.length))
      | none =>
          match s with
          | [] => none
          | _ :: t => scanMatch t (pos + 1)

/-- `regex.test(url)` for the global-flagged default regex: the search
starts at the regex's persistent `lastIndex`; on a match `lastIndex` is
advanced past the match and `true` is returned; on failure `lastIndex`
is reset to `0` and `false` is returned. -/
def regexTestG (lastIndex : Nat) (url : String) : Bool × Nat :=
  match scanMatch (url.toList.drop lastIndex) lastIndex with
  | some e => (true, e)
  | none => (false, 0)

/-- `this.supportedTypes = ['playlist', 'track']`. -/
def supportedTypes : List String := ["playlist", "track"]

/-- Model of the external `spotify-uri` library's `parse(url).type` for
the URL shapes accepted by the default regex: the path segment after the
host for `open.spotify.com` URLs, the segment after `spotify:` for URIs;
`none` models a parse failure (the library throws). -/
def spotifyUriParse (url : String) : Option String :=
  match dropLit "https://open.spotify.com/".toList url.toList with
  | some rest => some (String.mk (rest.takeWhile (fun c => c ≠ '/')))
  | none =>
      match dropLit "http://open.spotify.com/".toList url.toList with
      | some rest => some (String.mk (rest.takeWhile (fun c => c ≠ '/')))
      | none =>
          match dropLit "spotify:".toList url.toList with
          | some rest => some (String.mk (rest.takeWhile (fun c => c ≠ ':')))
          | none => none

/-- `SpotiTube.validateURL(url)`, as a function of the regex's persistent
`lastIndex` state (first component of the result pair is the returned
value, second the new `lastIndex`).  Source shape: throw on a falsy url;
`regex.test(url)`; on a match, parse with `spotify-uri` (a parse failure
is caught and yields `false`), reject unsupported types, else `true`;
on a regex miss return `false`. -/
def validateURL (lastIndex : Nat) (url : String) :
    Except JsError Bool × Nat :=
  if url = "" then
    (.error (.error "You did not specify the URL of Spotify!"), lastIndex)
  else
    let t := regexTestG lastIndex url
    if t.1 then
      match spotifyUriParse url with
      | none => (.ok false, t.2)
      | some ty =>
          if supportedTypes.contains ty then (.ok true, t.2)
          else (.ok false, t.2)
    else (.ok false, t.2)

/-! ## Resolution pipeline (`src/index.js`: `SpotiTube.convert`) -/

/-- A playlist track object (`song.track`): possibly-absent `uri` and
`external_urls.spotify`, a display name, and the artist names. -/
structure Track where
  uri : Option String
  externalUrl : Option String
  name : String
  artists : List String
deriving DecidableEq, Repr

/-- One item of a playlist page (`data.items[i]`); its `track` field can
be absent (deleted/local tracks). -/
structure PlaylistItem where
  track : Option Track
deriving DecidableEq, Repr

/-- A page of `getPlaylistTracks`: the items, the truthiness of the
`next` link, and the collection `total`. -/
structure Page where
  items : List PlaylistItem
  next : Bool
  total : Int
deriving Repr

/-- The object `getInfo` extracts from `spotify-url-info`'s `getData`. -/
structure SpotInfo where
  type : String
  id : String
  name : String
  artists : List String
  externalUrl : Option String
  uri : String
deriving DecidableEq, Repr

/-- Mutable state threaded through one conversion run: the Redis store
(association list, most recent write first — `redis.set` overwrites) and
the number of `searchLavaLink` calls made so far. -/
structure RunState where
  cache : List (String × SearchResult)
  queries : Nat
deriving DecidableEq, Repr

/-- The cache key written and read for one song:
`${song.uri || 'spotify:' + song?.external_urls?.spotify}`. -/
def songKey (t : Track) : String :=
  if jsTruthyStr t.uri then t.uri.getD ""
  else "spotify:" ++ t.externalUrl.getD "undefined"

/-- The search text for one song:
`${song.name} ${song.artists.map(x => x.name).join(' ')}`. -/
def buildQuery (t : Track) : String :=
  t.name ++ " " ++ String.intercalate " " t.artists

/-- The entry pushed onto `failed`:
`song?.external_urls?.spotify || song?.uri || song?.name || "Unknown song"`. -/
def failEntry (song : Option Track) : String :=
  (jsOrStr (song.bind Track.externalUrl)
    (jsOrStr (song.bind Track.uri)
      (jsOrStr (song.map Track.name) (some "Unknown song")))).getD ""

/-- Outcome of one iteration of the resolution loop: an entry appended
to `failed` or an entry appended to `songs` (completed). -/
inductive SongOutcome where
  | failed (entry : String)
  | completed (url : String) (info : SearchResult)
deriving DecidableEq, Repr

/-- One completed entry: `{url: result.uri, info: result}`. -/
structure CompletedEntry where
  url : String
  info : SearchResult
deriving DecidableEq, Repr

/-- The body of `convert`'s per-song resolution loop (src/index.js,
lines 459-488), for one song.  `search` is the oracle giving the result
of the k-th `searchLavaLink` call of the run (`none` = the search chain
resolved `null`, i.e. a miss or a swallowed failure).

Faithfulness notes tied to the source:
  * a song with a falsy `uri` or falsy `external_urls.spotify` is pushed
    onto `failed` without any resolution attempt;
  * with Redis configured, a cache hit is returned without searching;
  * on a cache miss, a `null` search result makes
    `setRedisCache(key, null)` throw `"Needs Value"`, the surrounding
    `catch` sets `result = null`, and nothing is written to the cache;
    a non-null result is written to the cache and returned;
  * without Redis, a `null` result makes the debug template's
    `result.uri` throw, again caught with `result = null`. -/
def processSong (redis : Bool) (search : Nat → String → Option SearchResult)
    (st : RunState) (item : PlaylistItem) : RunState × SongOutcome :=
  let song := item.track
  if !(jsTruthyStr (song.bind Track.uri)) ||
     !(jsTruthyStr (song.bind Track.externalUrl)) then
    (st, .failed (failEntry song))
  else
    match song with
    | none => (st, .failed (failEntry song))
    | some t =>
        if redis then
          match st.cache.lookup (songKey t) with
          | none =>
              let result := search st.queries (buildQuery t)
              let st₁ : RunState := { st with queries := st.queries + 1 }
              match result with
              | none => (st₁, .failed (failEntry song))
              | some r =>
                  ({ st₁ with cache := (songKey t, r) :: st₁.cache },
                   .completed r.uri r)
          | some check => (st, .completed check.uri check)
        else
          let result := search st.queries (buildQuery t)
          let st₁ : RunState := { st with queries := st.queries + 1 }
          match result with
          | none => (st₁, .failed (failEntry song))
          | some r => (st₁, .completed r.uri r)

/-- Result of the resolution loop: the `songs` and `failed` arrays, the
final run state, and how many items were examined (passed the limit
check at the top of an iteration). -/
structure LoopOut where
  songs : List CompletedEntry
  failed : List String
  st : RunState
  examined : Nat
deriving DecidableEq, Repr

/-- `for (let song of tracks) { ... }` of `convert`'s playlist branch:
before each item the limit check
`(failedLimit ? failed.length + songs.length : songs.length) >= limit`
breaks the loop; otherwise the item is examined by `processSong`. -/
def resolveLoop (redis failedLimit : Bool) (limit : Int)
    (search : Nat → String → Option SearchResult) :
    List PlaylistItem → RunState → List CompletedEntry → List String →
    Nat → LoopOut
  | [], st, songs, failed, ex => ⟨songs, failed, st, ex⟩
  | item :: rest, st, songs, failed, ex =>
      if ((if failedLimit then failed.length + songs.length
           else songs.length : Nat) : Int) ≥ limit then
        ⟨songs, failed, st, ex⟩
      else
        match processSong redis search st item with
        | (st', .failed e) =>
            resolveLoop redis failedLimit limit search rest st' songs
              (failed ++ [e]) (ex + 1)
        | (st', .completed u r) =>
            resolveLoop redis failedLimit limit search rest st'
              (songs ++ [⟨u, r⟩]) failed (ex + 1)

/-- `for (const song of data.items) { if (tracks.length >= limit) break;
else tracks.push(song) }`: gather page items into `tracks`, stopping at
`limit`. -/
def gatherLoop (limit : Int) : List PlaylistItem → List PlaylistItem →
    List PlaylistItem
  | [], tracks => tracks
  | song :: rest, tracks =>
      if (tracks.length : Int) ≥ limit then tracks
      else gatherLoop limit rest (tracks ++ [song])

/-- The pagination `while (next === true && (tracks.length < limit))`
loop.  `getPage offset pageLimit` is the catalog oracle for
`this.getPlaylist(id, {offset, limit})`; `total` is `data.total` of the
first page.  `fuel` bounds the number of loop iterations we observe (the
JS loop has no intrinsic bound); every property proved below holds for
every fuel. -/
def gatherWhile (getPage : Nat → Int → Page) (limit : Int) (total : Int) :
    Nat → List PlaylistItem → Bool → List PlaylistItem
  | 0, tracks, _ => tracks
  | fuel + 1, tracks, next =>
      if next && decide ((tracks.length : Int) < limit) then
        let pageLimit : Int :=
          if total - (tracks.length : Int) ≥ 100 then 100
          else total - (tracks.length : Int)
        let data2 := getPage tracks.length pageLimit
        let tracks' := gatherLoop limit data2.items tracks
        let next' : Bool :=
          if (tracks'.length : Int) ≥ limit then false else data2.next
        gatherWhile getPage limit total fuel tracks' next'
      else tracks

/-- The whole gather phase of the playlist branch: first page, then the
pagination while-loop. -/
def gatherPlaylist (limit : Int) (fuel : Nat) (page : Page)
    (getPage : Nat → Int → Page) : List PlaylistItem :=
  gatherWhile getPage limit page.total fuel (gatherLoop limit page.items []) page.next

/-- `converted: {failed, completed, total}` of the returned report. -/
structure ConvCounts where
  failed : Int
  completed : Int
  total : Int
deriving DecidableEq, Repr

/-- `songs: {failed, completed}` of the returned report. -/
structure SongsOut where
  failed : List String
  completed : List CompletedEntry
deriving DecidableEq, Repr

/-- The report object `convert` returns (timing and raw `info` metadata
are not modelled; neither is observed by any claim). -/
structure ConvReport where
  songs : SongsOut
  limit : Int
  converted : ConvCounts
deriving DecidableEq, Repr

/-- What `convert` resolves to when it does not throw: the literal
`null` of the `if (!getInfo) return null` path, or a report object. -/
inductive ConvertOut where
  | nullResult
  | report (r : ConvReport)
deriving DecidableEq, Repr

/-- The collaborators of one `convert` run, supplied as oracles:
the value of `await this.getInfo(url)` (`none` = the catch-path `null`),
the playlist pages, whether Redis is configured and its initial
contents, and the per-call `searchLavaLink` outcomes. -/
structure ConvertEnv where
  getInfo : Option SpotInfo
  firstPage : Page
  getPage : Nat → Int → Page
  pageFuel : Nat
  redis : Bool
  cache : List (String × SearchResult)
  search : Nat → String → Option SearchResult

/-- Truthiness of the value `convert` and `getInfo` actually test in
`if (!this.validateURL(url)) throw ...`: `validateURL` is an `async`
method and the call is not awaited, so the tested value is the returned
Promise object — and every object is truthy in JS, whatever the url. -/
def unawaitedValidateTruthy (url : String) : Bool := true

/-- `SpotiTube.convert(url, limit, failedLimit)` (src/index.js 380-513).

Source shape, in order: throw on falsy url; the (ineffective, see
`unawaitedValidateTruthy`) regex guard; normalize `limit` (falsy or
`< 1` becomes 20) and `failedLimit` (non-boolean becomes `false`);
`getInfo` — on `null`, return `null`; reject unsupported types; the
track branch does one search and reports on it (limits do not apply);
the playlist branch gathers tracks up to `limit` across pages, then runs
the resolution loop and assembles the report, whose `total` is
`failed.length + songs.length`.  `failedLimit0 = none` models passing a
non-boolean. -/
def convert (env : ConvertEnv) (url : String) (limit0 : Int)
    (failedLimit0 : Option Bool) : Except JsError ConvertOut :=
  if url = "" then .error (.error "You did not specify the URL of Spotify!")
  else if !(unawaitedValidateTruthy url) then
    .error (.error "Url is not a match to the regex!")
  else
    let limit : Int := if limit0 = 0 ∨ limit0 < 1 then 20 else limit0
    let failedLimit : Bool := match failedLimit0 with
      | some b => b
      | none => false
    match env.getInfo with
    | none => .ok .nullResult
    | some info =>
        if !(supportedTypes.contains info.type) then
          .error (.error (info.type ++ " is not a support format only playlist,track"))
        else if info.type = "track" then
          let result := env.search 0 (info.name ++ " " ++ String.intercalate " " info.artists)
          .ok (.report {
            songs := {
              failed := match result with
                | none => [(jsOrStr info.externalUrl (some info.uri)).getD ""]
                | some _ => [],
              completed := match result with
                | some r => [⟨r.uri, r⟩]
                | none => [] },
            limit := limit,
            converted := {
              failed := match result with | none => 1 | some _ => 0,
              completed := match result with | none => 0 | some _ => 1,
              total := 1 } })
        else if info.type = "playlist" then
          let tracks := gatherPlaylist limit env.pageFuel env.firstPage env.getPage
          let out := resolveLoop env.redis failedLimit limit env.search tracks
            ⟨env.cache, 0⟩ [] [] 0
          .ok (.report {
            songs := { failed := out.failed, completed := out.songs },
            limit := limit,
            converted := {
              failed := (out.failed.length : Int),
              completed := (out.songs.length : Int),
              total := ((out.failed.length + out.songs.length : Nat) : Int) } })
        else
          .error (.error (info.type ++ " is not a support format only playlist,track"))

/-! ## Concrete data used by witnesses and counterexamples -/

/-- A fresh node as the `LavaLink` constructor builds it. -/
def nodeOf (nm : String) (ld : Int) (er : Option String) : LLNode :=
  { load := ld, error := er, url := some "http://localhost:2869/",
    password := some "pw", name := nm }

/-- A pool with one errored member and three healthy ones, two of which
tie for the minimal load. -/
def poolMixed : NodePool :=
  [nodeOf "a" 3 (some "boom"), nodeOf "b" 2 none, nodeOf "c" 2 none,
   nodeOf "d" 5 none]

/-- The five tracks of the limit-policy scenario (spec section 8). -/
def trk1 : Track :=
  { uri := some "spotify:track:t1", externalUrl := some "https://sp/1",
    name := "n1", artists := ["a1"] }

def trk2 : Track :=
  { uri := some "spotify:track:t2", externalUrl := some "https://sp/2",
    name := "n2", artists := ["a2"] }

def trk3 : Track :=
  { uri := some "spotify:track:t3", externalUrl := some "https://sp/3",
    name := "n3", artists := ["a3"] }

def trk4 : Track :=
  { uri := some "spotify:track:t4", externalUrl := some "https://sp/4",
    name := "n4", artists := ["a4"] }

def trk5 : Track :=
  { uri := some "spotify:track:t5", externalUrl := some "https://sp/5",
    name := "n5", artists := ["a5"] }

/-- The 5-item collection, in source order. -/
def items5 : List PlaylistItem :=
  [⟨some trk1⟩, ⟨some trk2⟩, ⟨some trk3⟩, ⟨some trk4⟩, ⟨some trk5⟩]

/-- A successful search result. -/
def resOk : SearchResult :=
  { uri := "https://youtu.be/ok", title := "hit", track := "b64" }

/-- Search oracle of the scenario: the queries built from items 1 and 3
fail, every other query succeeds. -/
def searchFail13 : Nat → String → Option SearchResult := fun _ q =>
  if q = buildQuery trk1 ∨ q = buildQuery trk3 then none else some resOk

/-- The single catalog page holding the whole 5-item collection. -/
def pageOf5 : Page := { items := items5, next := false, total := 5 }

/-- The classified metadata of the 5-item playlist. -/
def infoP5 : SpotInfo :=
  { type := "playlist", id := "p5", name := "pl", artists := [],
    externalUrl := some "https://open.spotify.com/playlist/p5",
    uri := "spotify:playlist:p5" }

/-- An empty catalog page. -/
def pageEmpty : Page := { items := [], next := false, total := 5 }

/-- A `convert` environment for the 5-item playlist scenario, without
Redis. -/
def envPlaylist5 : ConvertEnv :=
  { getInfo := some infoP5, firstPage := pageOf5,
    getPage := fun _ _ => pageEmpty,
    pageFuel := 8, redis := false, cache := [], search := searchFail13 }

/-- A well-formed playlist reference for the scenario. -/
def urlP5 : String := "spotify:playlist:p5"

/-- Observation of a `convert` outcome: the `(completed.length,
failed.length)` pair of a returned report, `none` for `null` or a throw. -/
def reportCounts : Except JsError ConvertOut → Option (Nat × Nat)
  | .ok (.report r) => some (r.songs.completed.length, r.songs.failed.length)
  | _ => none

/-- An environment whose catalog metadata fetch fails:
`await this.getInfo(url)` yields `null`. -/
def envMiss : ConvertEnv :=
  { getInfo := none, firstPage := pageOf5, getPage := fun _ _ => pageOf5,
    pageFuel := 0, redis := false, cache := [], search := fun _ _ => none }

/-- The track URL of the README/doc examples. -/
def uTrack : String := "https://open.spotify.com/track/5nTtCOCds6I0PHMNtqelas"

/-! ## Lemmas about the pool selection algorithm -/

theorem insertByLoad_head (x : LLNode) (l : List LLNode) :
    (insertByLoad x l).head? =
      some (match l.head? with
            | none => x
            | some y => if x.load < y.load then x else y) := by
  cases l with
  | nil => rfl
  | cons y ys =>
      by_cases h : x.load < y.load
      · simp [insertByLoad, h]
      · simp [insertByLoad, h]

theorem sortByLoad_append_single (l : List LLNode) (x : LLNode) :
    sortByLoad (l ++ [x]) = insertByLoad x (sortByLoad l) := by
  simp [sortByLoad, List.foldl_append]


theorem firstMinLoad_append_single (l : List LLNode) (x : LLNode) :
    firstMinLoad (l ++ [x]) =
      some ((firstMinLoad l).elim x (fun m => if m.load ≤ x.load then m else x)) := by
  induction l with
  | nil => rfl
  | cons y ys ih =>
      rw [List.cons_append]
      simp only [firstMinLoad]
      rw [ih]
      cases hys : firstMinLoad ys with
      | none =>
          by_cases h : y.load ≤ x.load <;> simp [Option.elim, h]
      | some m =>
          by_cases h1 : m.load ≤ x.load <;>
            by_cases h2 : y.load ≤ m.load <;>
            by_cases h3 : y.load ≤ x.load <;>
            simp [Option.elim, h1, h2, h3] <;> omega

theorem sortByLoad_head (l : List LLNode) :
    (sortByLoad l).head? = firstMinLoad l := by
  induction l using List.reverseRecOn with
  | nil => rfl
  | append_singleton l x ih =>
      rw [sortByLoad_append_single, insertByLoad_head, ih,
        firstMinLoad_append_single]
      cases h : firstMinLoad l with
      | none => simp
      | some m =>
          by_cases hlt : x.load < m.load <;> by_cases hle : m.load ≤ x.load <;>
            simp [Option.elim, hlt, hle] <;> omega

theorem firstMinLoad_eq_none_iff (l : List LLNode) :
    firstMinLoad l = none ↔ l = [] := by
  cases l with
  | nil => simp [firstMinLoad]
  | cons x xs =>
      simp only [firstMinLoad]
      cases firstMinLoad xs with
      | none => simp
      | some m => by_cases h : x.load ≤ m.load <;> simp [h]

theorem firstMinLoad_spec (l : List LLNode) (m : LLNode)
    (h : firstMinLoad l = some m) :
    m ∈ l ∧ (∀ c ∈ l, m.load ≤ c.load) ∧
      ∃ pre post, l = pre ++ m :: post ∧ ∀ c ∈ pre, m.load < c.load := by
  induction l generalizing m with
  | nil => simp [firstMinLoad] at h
  | cons x xs ih =>
      simp only [firstMinLoad] at h
      cases hxs : firstMinLoad xs with
      | none =>
          rw [hxs] at h
          have hx : x = m := by simpa using h
          have hnil : xs = [] := (firstMinLoad_eq_none_iff xs).mp hxs
          subst hx; subst hnil
          exact ⟨List.mem_singleton.mpr rfl, by simp, [], [], rfl, by simp⟩
      | some m' =>
          rw [hxs] at h
          obtain ⟨hmem', hle', pre', post', heq', hpre'⟩ := ih m' hxs
          by_cases hle : x.load ≤ m'.load
          · have hx : x = m := by simpa [hle] using h
            subst hx
            refine ⟨List.mem_cons_self x xs, ?_, [], xs, rfl, by simp⟩
            intro c hc
            rcases List.mem_cons.mp hc with hcx | hcxs
            · subst hcx; exact le_refl _
            · exact le_trans hle (hle' c hcxs)
          · have hx : m' = m := by simpa [hle] using h
            subst hx
            refine ⟨List.mem_cons_of_mem x hmem', ?_, x :: pre', post',
              by rw [heq', List.cons_append], ?_⟩
            · intro c hc
              rcases List.mem_cons.mp hc with hcx | hcxs
              · subst hcx; omega
              · exact hle' c hcxs
            · intro c hc
              rcases List.mem_cons.mp hc with hcx | hcxs
              · subst hcx; omega
              · exact hpre' c hcxs

/-- C2: on every pool with at least one non-errored backend,
`getBestNode` returns a non-errored backend of minimal load among the
non-errored members, and it is the first such member in pool iteration
order (everything before it in the filtered pool has strictly greater
load). -/
theorem getBestNode_first_min (nodes : NodePool)
    (h : ∃ n ∈ nodes, jsTruthyStr n.error = false) :
    ∃ b, getBestNode nodes = .ok b ∧ jsTruthyStr b.error = false ∧
      (∀ c ∈ healthyNodes nodes, b.load ≤ c.load) ∧
      ∃ pre post, healthyNodes nodes = pre ++ b :: post ∧
        ∀ c ∈ pre, b.load < c.load := by
  obtain ⟨n, hn, hne⟩ := h
  have hmem : n ∈ healthyNodes nodes := by
    simp [healthyNodes, List.mem_filter, hn, hne]
  have hlen : ¬ nodes.length = 0 := by
    intro h0
    rw [List.length_eq_zero] at h0
    subst h0; cases hn
  have hne' : healthyNodes nodes ≠ [] := by
    intro h0; rw [h0] at hmem; cases hmem
  cases hfm : firstMinLoad (healthyNodes nodes) with
  | none => exact absurd ((firstMinLoad_eq_none_iff _).mp hfm) hne'
  | some b =>
      obtain ⟨hbmem, hmin, pre, post, heq, hpre⟩ := firstMinLoad_spec _ _ hfm
      refine ⟨b, ?_, ?_, hmin, pre, post, heq, hpre⟩
      · simp [getBestNode, hlen, sortByLoad_head, hfm]
      · have := (List.mem_filter.mp hbmem).2
        simpa using this

/-- C3: `getBestNode` fails with the `No nodes existing` error exactly
when the pool is empty or every member is flagged errored, and whenever
it returns a backend that backend is not errored. -/
theorem getBestNode_none_available (nodes : NodePool) :
    (getBestNode nodes = .error (.error "No nodes existing") ↔
      nodes = [] ∨ ∀ n ∈ nodes, jsTruthyStr n.error = true) ∧
    ∀ b, getBestNode nodes = .ok b → jsTruthyStr b.error = false := by
  constructor
  · by_cases hlen : nodes.length = 0
    · rw [List.length_eq_zero] at hlen
      subst hlen
      simp [getBestNode]
    · have hnodes : nodes ≠ [] := by
        intro h0; subst h0; simp at hlen
      by_cases hh : healthyNodes nodes = []
      · constructor
        · intro _
          right
          intro n hn
          have := List.filter_eq_nil_iff.mp hh n hn
          simpa using this
        · intro _
          simp [getBestNode, hlen, sortByLoad_head, hh, firstMinLoad]
      · constructor
        · intro habs
          cases hfm : firstMinLoad (healthyNodes nodes) with
          | none => exact absurd ((firstMinLoad_eq_none_iff _).mp hfm) hh
          | some b => simp [getBestNode, hlen, sortByLoad_head, hfm] at habs
        · intro hcase
          rcases hcase with h0 | hall
          · exact absurd h0 hnodes
          · exfalso
            apply hh
            apply List.filter_eq_nil_iff.mpr
            intro a ha
            simp [hall a ha]
  · intro b hb
    by_cases hlen : nodes.length = 0
    · simp [getBestNode, hlen] at hb
    · cases hfm : firstMinLoad (healthyNodes nodes) with
      | none => simp [getBestNode, hlen, sortByLoad_head, hfm] at hb
      | some m =>
          have hmb : m = b := by
            simpa [getBestNode, hlen, sortByLoad_head, hfm] using hb
          subst hmb
          have hbmem := (firstMinLoad_spec _ _ hfm).1
          simpa using (List.mem_filter.mp hbmem).2

/-- Witness for `getBestNode_first_min`: the mixed pool has a healthy
member, and the theorem applies to it. -/
theorem getBestNode_first_min_witness :
    ∃ b, getBestNode poolMixed = .ok b ∧ jsTruthyStr b.error = false ∧
      (∀ c ∈ healthyNodes poolMixed, b.load ≤ c.load) ∧
      ∃ pre post, healthyNodes poolMixed = pre ++ b :: post ∧
        ∀ c ∈ pre, b.load < c.load :=
  getBestNode_first_min poolMixed ⟨nodeOf "b" 2 none, by decide, by decide⟩

/-- C4: the load counter is NOT released exactly once on every outcome.
On a response whose body carries an `error` field (a protocol-error
response, e.g. an HTTP 4xx from Lavalink), the `.then` handler
decrements `load` and then throws, and the `.catch` handler decrements
`load` a second time: one completed query drives the counter from `0`
to `-1`, violating `load ≥ 0`.  On the other outcomes (transport
rejection, empty result, success) the counter does return to `0`. -/
theorem lavalink_search_load_bug :
    (LLNode.search (nodeOf "m" 0 none) "q"
        (.resp { error := some "Unauthorized", tracks := [] })).1.load = -1 ∧
    (LLNode.search (nodeOf "m" 0 none) "q" (.reject "ECONNREFUSED")).1.load = 0 ∧
    (LLNode.search (nodeOf "m" 0 none) "q"
        (.resp { error := none, tracks := [] })).1.load = 0 ∧
    (LLNode.search (nodeOf "m" 0 none) "q"
        (.resp { error := none,
                 tracks := [{ info := { uri := "u", title := "t" },
                              track := "b" }] })).1.load = 0 := by
  decide

/-- C7: `delName` on a name that does exist raises
`ReferenceError: key is not defined` (the source deletes
`this.nodes.delete(key)` with an undeclared `key`) instead of returning
`true`; on a missing name it does return `false` without raising. -/
theorem delName_reference_bug :
    delName [("a", nodeOf "a" 0 none)] "a" =
      .error (.referenceError "key is not defined") ∧
    delName [("a", nodeOf "a" 0 none)] "b" =
      .ok ([("a", nodeOf "a" 0 none)], false) :=
  ⟨rfl, rfl⟩

/-- C5: with Redis configured, when the cache misses and the backend
query yields `null`, nothing is written to the cache (the attempted
`setRedisCache(key, null)` throws `Needs Value` and is caught), the item
is recorded as failed, and a second resolve of the same item misses the
cache again and performs another backend query. -/
theorem resolve_no_failure_memoization
    (search : Nat → String → Option SearchResult) (st : RunState) (t : Track)
    (huri : jsTruthyStr t.uri = true)
    (hext : jsTruthyStr t.externalUrl = true)
    (hmiss : st.cache.lookup (songKey t) = none)
    (hfail : search st.queries (buildQuery t) = none) :
    (processSong true search st ⟨some t⟩).1.cache = st.cache ∧
    (processSong true search st ⟨some t⟩).1.queries = st.queries + 1 ∧
    (processSong true search st ⟨some t⟩).2 = .failed (failEntry (some t)) ∧
    (processSong true search (processSong true search st ⟨some t⟩).1
        ⟨some t⟩).1.queries = st.queries + 2 := by
  have h1 : processSong true search st ⟨some t⟩ =
      ({ st with queries := st.queries + 1 }, .failed (failEntry (some t))) := by
    simp [processSong, huri, hext, hmiss, hfail]
  refine ⟨by rw [h1], by rw [h1], by rw [h1], ?_⟩
  rw [h1]
  cases h2 : search (st.queries + 1) (buildQuery t) with
  | none => simp [processSong, huri, hext, hmiss, h2]
  | some r => simp [processSong, huri, hext, hmiss, h2]

/-- C6: with Redis configured, when a cache miss is resolved by a
non-null backend result the result is written under the item key, and a
second resolve of the same item returns that cached value with the run
state unchanged — in particular zero further backend queries, whatever
the backend oracle of the second call would answer. -/
theorem resolve_cache_idempotent
    (search search₂ : Nat → String → Option SearchResult) (st : RunState)
    (t : Track) (r : SearchResult)
    (huri : jsTruthyStr t.uri = true)
    (hext : jsTruthyStr t.externalUrl = true)
    (hmiss : st.cache.lookup (songKey t) = none)
    (hhit : search st.queries (buildQuery t) = some r) :
    (processSong true search st ⟨some t⟩).2 = .completed r.uri r ∧
    (processSong true search st ⟨some t⟩).1.cache.lookup (songKey t) = some r ∧
    (processSong true search₂ (processSong true search st ⟨some t⟩).1
        ⟨some t⟩).2 = .completed r.uri r ∧
    (processSong true search₂ (processSong true search st ⟨some t⟩).1
        ⟨some t⟩).1 = (processSong true search st ⟨some t⟩).1 := by
  have h1 : processSong true search st ⟨some t⟩ =
      ({ cache := (songKey t, r) :: st.cache, queries := st.queries + 1 },
       .completed r.uri r) := by
    simp [processSong, huri, hext, hmiss, hhit]
  have hlook : (((songKey t, r) :: st.cache).lookup (songKey t)) = some r := by
    simp [List.lookup]
  refine ⟨by rw [h1], by rw [h1]; exact hlook, ?_, ?_⟩ <;>
    · rw [h1]
      simp [processSong, huri, hext, hlook]

/-- Witness for `resolve_no_failure_memoization` at track 1, an empty
cache and an always-failing backend. -/
theorem resolve_no_failure_memoization_witness :
    (processSong true (fun _ _ => none) ⟨[], 0⟩ ⟨some trk1⟩).1.cache = [] ∧
    (processSong true (fun _ _ => none) ⟨[], 0⟩ ⟨some trk1⟩).1.queries = 0 + 1 ∧
    (processSong true (fun _ _ => none) ⟨[], 0⟩ ⟨some trk1⟩).2 =
      .failed (failEntry (some trk1)) ∧
    (processSong true (fun _ _ => none)
        (processSong true (fun _ _ => none) ⟨[], 0⟩ ⟨some trk1⟩).1
        ⟨some trk1⟩).1.queries = 0 + 2 :=
  resolve_no_failure_memoization (fun _ _ => none) ⟨[], 0⟩ trk1 rfl rfl rfl rfl

/-- Witness for `resolve_cache_idempotent` at track 1, an empty cache
and a backend that succeeds on the first call. -/
theorem resolve_cache_idempotent_witness :
    (processSong true (fun _ _ => some resOk) ⟨[], 0⟩ ⟨some trk1⟩).2 =
      .completed resOk.uri resOk ∧
    (processSong true (fun _ _ => some resOk) ⟨[], 0⟩
        ⟨some trk1⟩).1.cache.lookup (songKey trk1) = some resOk ∧
    (processSong true (fun _ _ => none)
        (processSong true (fun _ _ => some resOk) ⟨[], 0⟩ ⟨some trk1⟩).1
        ⟨some trk1⟩).2 = .completed resOk.uri resOk ∧
    (processSong true (fun _ _ => none)
        (processSong true (fun _ _ => some resOk) ⟨[], 0⟩ ⟨some trk1⟩).1
        ⟨some trk1⟩).1 =
      (processSong true (fun _ _ => some resOk) ⟨[], 0⟩ ⟨some trk1⟩).1 :=
  resolve_cache_idempotent (fun _ _ => some resOk) (fun _ _ => none)
    ⟨[], 0⟩ trk1 resOk rfl rfl rfl rfl

/-! ## Lemmas about gathering and the limit policy -/

theorem gatherLoop_length_le (limit : Int) (items acc : List PlaylistItem)
    (h : (acc.length : Int) ≤ limit) :
    ((gatherLoop limit items acc).length : Int) ≤ limit := by
  induction items generalizing acc with
  | nil => simpa [gatherLoop] using h
  | cons x rest ih =>
      simp only [gatherLoop]
      by_cases hge : (acc.length : Int) ≥ limit
      · simpa [hge] using h
      · rw [if_neg hge]
        apply ih
        simp only [List.length_append, List.length_cons, List.length_nil]
        push_cast
        omega

theorem gatherWhile_length_le (getPage : Nat → Int → Page) (limit total : Int)
    (fuel : Nat) (tracks : List PlaylistItem) (next : Bool)
    (h : (tracks.length : Int) ≤ limit) :
    ((gatherWhile getPage limit total fuel tracks next).length : Int) ≤ limit := by
  induction fuel generalizing tracks next with
  | zero => simpa [gatherWhile] using h
  | succ fuel ih =>
      simp only [gatherWhile]
      split
      · exact ih _ _ (gatherLoop_length_le _ _ _ h)
      · exact h

theorem gatherPlaylist_length_le (limit : Int) (fuel : Nat) (page : Page)
    (getPage : Nat → Int → Page) (h : 0 ≤ limit) :
    ((gatherPlaylist limit fuel page getPage).length : Int) ≤ limit :=
  gatherWhile_length_le _ _ _ _ _ _
    (gatherLoop_length_le _ _ _ (by simpa using h))

theorem resolveLoop_examined_eq (redis : Bool) (limit : Int)
    (search : Nat → String → Option SearchResult)
    (items : List PlaylistItem) :
    ∀ (st : RunState) (songs : List CompletedEntry) (failed : List String)
      (ex : Nat),
    ((resolveLoop redis false limit search items st songs failed
        ex).songs.length : Int) < limit →
    (resolveLoop redis false limit search items st songs failed ex).examined
      = ex + items.length := by
  induction items with
  | nil => intro st songs failed ex h; simp [resolveLoop]
  | cons item rest ih =>
      intro st songs failed ex h
      simp only [resolveLoop] at h ⊢
      by_cases hbreak : ((songs.length : Nat) : Int) ≥ limit
      · rw [if_pos (by simpa using hbreak)] at h ⊢
        simp at h
        omega
      · rw [if_neg (by simpa using hbreak)] at h ⊢
        cases hp : processSong redis search st item with
        | mk st' o =>
            rw [hp] at h
            cases o with
            | failed e =>
                have h' : ((resolveLoop redis false limit search rest st'
                    songs (failed ++ [e]) (ex + 1)).songs.length : Int)
                    < limit := h
                show (resolveLoop redis false limit search rest st' songs
                    (failed ++ [e]) (ex + 1)).examined
                  = ex + (item :: rest).length
                rw [ih _ _ _ _ h']
                simp only [List.length_cons]
                omega
            | completed u r =>
                have h' : ((resolveLoop redis false limit search rest st'
                    (songs ++ [⟨u, r⟩]) failed (ex + 1)).songs.length : Int)
                    < limit := h
                show (resolveLoop redis false limit search rest st'
                    (songs ++ [⟨u, r⟩]) failed (ex + 1)).examined
                  = ex + (item :: rest).length
                rw [ih _ _ _ _ h']
                simp only [List.length_cons]
                omega

/-- C1 counterexample: on the 5-item collection with items 1 and 3
failing, `limit = 2` and `failedLimit = false`, `convert` yields one
completed and one failed entry — not two of each as the claim states —
because gathering stops at `limit` items before resolution starts. -/
theorem convert_failedLimit_false_cex :
    reportCounts (convert envPlaylist5 urlP5 2 (some false)) = some (1, 1) ∧
    reportCounts (convert envPlaylist5 urlP5 2 (some false)) ≠ some (2, 2) := by
  decide

/-- C1 (amended): with `failedLimit = false`, the playlist pipeline
still gathers at most `limit` items (for every page layout and fuel),
so at most `limit` source items are ever examined; among the gathered
items failed resolutions do not stop iteration — whenever fewer than
`limit` successes come out, every gathered item was examined.  On the
5-item collection with items 1 and 3 failing and `limit = 2`, exactly
the 2 gathered items are examined, `completed.length = 1` and
`failed.length = 1`. -/
theorem convert_failedLimit_false_cap :
    (∀ (limit : Int) (fuel : Nat) (page : Page) (getPage : Nat → Int → Page),
        0 ≤ limit →
        ((gatherPlaylist limit fuel page getPage).length : Int) ≤ limit) ∧
    (∀ (redis : Bool) (limit : Int)
        (search : Nat → String → Option SearchResult)
        (items : List PlaylistItem) (st : RunState),
        ((resolveLoop redis false limit search items st [] []
            0).songs.length : Int) < limit →
        (resolveLoop redis false limit search items st [] [] 0).examined
          = items.length) ∧
    (gatherPlaylist 2 8 pageOf5 envPlaylist5.getPage).length = 2 ∧
    reportCounts (convert envPlaylist5 urlP5 2 (some false)) = some (1, 1) := by
  refine ⟨fun limit fuel page getPage h => gatherPlaylist_length_le _ _ _ _ h,
    fun redis limit search items st h => by
      simpa using resolveLoop_examined_eq redis limit search items st [] [] 0 h,
    by decide, by decide⟩

/-- C8 (amended): for every environment and non-empty reference,
`convert` resolves to the literal `null` exactly when the catalog
metadata fetch (`getInfo`) yielded `null`; every returned report is
complete (`converted.total` equals `completed.length + failed.length`);
everything else is a thrown error. -/
theorem convert_report_or_null (env : ConvertEnv) (url : String)
    (limit0 : Int) (failedLimit0 : Option Bool) (h : url ≠ "") :
    (convert env url limit0 failedLimit0 = .ok .nullResult ↔
      env.getInfo = none) ∧
    ∀ r, convert env url limit0 failedLimit0 = .ok (.report r) →
      r.converted.total
        = ((r.songs.completed.length + r.songs.failed.length : Nat) : Int) := by
  unfold convert
  rw [if_neg h]
  simp only [unawaitedValidateTruthy, Bool.not_true, Bool.false_eq_true,
    if_false]
  cases hgi : env.getInfo with
  | none => simp
  | some info =>
      by_cases hsup : supportedTypes.contains info.type
      · by_cases htr : info.type = "track"
        · simp only [hsup, htr, Bool.not_true, Bool.false_eq_true, if_false,
            if_true]
          cases hs : env.search 0 (info.name ++ " " ++
              String.intercalate " " info.artists) with
          | none =>
              constructor
              · simp [supportedTypes]
              · intro r hr
                injection hr with hr'
                injection hr' with hr''
                subst hr''
                simp
          | some v =>
              constructor
              · simp [supportedTypes]
              · intro r hr
                injection hr with hr'
                injection hr' with hr''
                subst hr''
                simp
        · by_cases hpl : info.type = "playlist"
          · simp only [hsup, htr, hpl, Bool.not_true, Bool.false_eq_true,
              if_false, if_true]
            constructor
            · simp [supportedTypes]
            · intro r hr
              injection hr with hr'
              injection hr' with hr''
              subst hr''
              simp
              omega
          · simp only [hsup, htr, hpl, Bool.not_true, Bool.false_eq_true,
              if_false]
            simp
      · simp only [hsup, Bool.not_false, if_true]
        simp

/-- C8 counterexample: on a well-formed supported reference whose
catalog metadata fetch fails, `convert` returns the plain `null` of
`if (!getInfo) return null` — neither a report nor a raised error. -/
theorem convert_null_cex :
    convert envMiss urlP5 20 (some true) = .ok .nullResult := rfl

/-- Witness for `convert_report_or_null` at a concrete non-empty
reference and the catalog-miss environment. -/
theorem convert_report_or_null_witness :
    (convert envMiss urlP5 20 (some true) = .ok .nullResult ↔
      envMiss.getInfo = none) ∧
    ∀ r, convert envMiss urlP5 20 (some true) = .ok (.report r) →
      r.converted.total
        = ((r.songs.completed.length + r.songs.failed.length : Nat) : Int) :=
  convert_report_or_null envMiss urlP5 20 (some true) (by decide)

/-- C9: `convert` never raises the regex-mismatch error on any non-empty
reference — `validateURL` is `async` and the guard tests the truthiness
of its un-awaited Promise — although the awaited `validateURL` does
return `false` on the malformed reference `"abc"`; `convert "abc"`
instead proceeds to the catalog fetch and yields `null`. -/
theorem convert_validation_skipped :
    (∀ (env : ConvertEnv) (limit0 : Int) (failedLimit0 : Option Bool)
        (url : String), url ≠ "" →
        convert env url limit0 failedLimit0 ≠
          .error (.error "Url is not a match to the regex!")) ∧
    (validateURL 0 "abc").1 = .ok false ∧
    convert envMiss "abc" 20 (some true) = .ok .nullResult := by
  refine ⟨?_, rfl, rfl⟩
  intro env limit0 failedLimit0 url hurl hc
  unfold convert at hc
  rw [if_neg hurl] at hc
  simp only [unawaitedValidateTruthy, Bool.not_true, Bool.false_eq_true,
    if_false] at hc
  have h44 : (" is not a support format only playlist,track").length = 44 :=
    rfl
  have h32 : ("Url is not a match to the regex!").length = 32 := rfl
  revert hc
  cases hgi : env.getInfo with
  | none => intro hc; exact Except.noConfusion hc
  | some info =>
      intro hc
      by_cases hsup : supportedTypes.contains info.type
      · by_cases htr : info.type = "track"
        · simp only [hsup, htr, Bool.not_true, Bool.false_eq_true, if_false,
            if_true] at hc
          exact Except.noConfusion hc
        · by_cases hpl : info.type = "playlist"
          · simp only [hsup, htr, hpl, Bool.not_true, Bool.false_eq_true,
              if_false, if_true] at hc
            exact Except.noConfusion hc
          · simp only [hsup, htr, hpl, Bool.not_true, Bool.false_eq_true,
              if_false] at hc
            injection hc with h2
            injection h2 with h3
            have hlen := congrArg String.length h3
            rw [String.length_append] at hlen
            omega
      · simp only [hsup, Bool.not_false, if_true] at hc
        injection hc with h2
        injection h2 with h3
        have hlen := congrArg String.length h3
        rw [String.length_append] at hlen
        omega

/-- C10 counterexample: two successive `validateURL` calls on the same
well-formed track URL, starting from a fresh regex state, return `true`
then `false` — the global-flagged regex keeps its `lastIndex` between
calls. -/
theorem validateURL_stateful_cex :
    (validateURL 0 uTrack).1 = .ok true ∧
    (validateURL (validateURL 0 uTrack).2 uTrack).1 = .ok false :=
  ⟨rfl, rfl⟩

/-- C10 (amended): `validateURL` is deterministic only as a function of
the pair (input, regex `lastIndex`), not of the input alone: from a
fresh state the track URL validates `true` and moves `lastIndex` to the
match end (53); from there the same URL validates `false` and resets
`lastIndex` to `0`, so a third call returns `true` again — results on a
matching URL alternate.  A non-matching string returns `false` and
leaves `lastIndex` at `0` every time. -/
theorem validateURL_alternates :
    (validateURL 0 uTrack).1 = .ok true ∧
    (validateURL 0 uTrack).2 = 53 ∧
    (validateURL 53 uTrack).1 = .ok false ∧
    (validateURL 53 uTrack).2 = 0 ∧
    (validateURL 0 "notaspotifyurl").1 = .ok false ∧
    (validateURL 0 "notaspotifyurl").2 = 0 :=
  ⟨rfl, rfl, rfl, rfl, rfl, rfl⟩
